import Mathlib

/-!
Verification of the direct-messaging engine of the `capital` repository.

The embedding follows the source:
* `src/supabase/migrations/20251113154500_initialize_fundlink_schema.sql`
  and `20251126120000_enhance_messages_with_media.sql` define the `messages`
  table, its `messages_content_check` constraint and the row-level policies.
* `src/app/startup/[id].tsx` (the chat screen) provides `fetchMessages`,
  `markAsRead`, `deleteMessage`, `uploadAttachment`, `sendMessage`,
  `isRelevantMessage` and the realtime handlers of `subscribeToMessages`.
* `src/app/(tabs)/_layout.tsx` (the conversation list) provides
  `getMessagePreview` and `fetchConversations`.

User ids (uuid), message ids (uuid) and timestamps (timestamptz) are opaque
ordered identifiers in the source and are modelled as `Nat`.
-/

namespace Capital

/-- `attachment_type text check (attachment_type in ('image','video','document'))`
    from the media migration, and the `MessageAttachmentType` union in the
    app's types. -/
inductive MessageAttachmentType where
  | image
  | video
  | document
deriving DecidableEq, Repr

/-- The `attachment_metadata` jsonb payload written by `uploadAttachment`:
    `{ file_name, file_size, mime_type }`. -/
structure AttachmentMetadata where
  file_name : String
  file_size : Nat
  mime_type : Option String
deriving DecidableEq, Repr

/-- A row of the `messages` table (initial schema plus the media migration
    columns `attachment_url`, `attachment_type`, `attachment_metadata`). -/
structure Message where
  id : Nat
  sender_id : Nat
  recipient_id : Nat
  content : String
  read : Bool
  created_at : Nat
  attachment_url : Option String
  attachment_type : Option MessageAttachmentType
  attachment_metadata : Option AttachmentMetadata
deriving DecidableEq, Repr

/-- The `messages_content_check` constraint from
    `20251126120000_enhance_messages_with_media.sql`:
    `(char_length(content) between 1 and 1000)
     or (attachment_url is not null and char_length(content) <= 1000)`. -/
def contentCheck (content : String) (attachment_url : Option String) : Bool :=
  (1 ≤ content.length && content.length ≤ 1000)
    || (attachment_url.isSome && content.length ≤ 1000)

/-- The message store is the `messages` table: a finite list of rows. -/
abbrev Store := List Message

/-- `insert into messages ...`: the database accepts the row iff it satisfies
    `messages_content_check`; a violation fails the whole statement. -/
def createMessage (store : Store) (m : Message) : Option Store :=
  if contentCheck m.content m.attachment_url then some (store ++ [m]) else none

/-- One row of the edit statement issued by `sendMessage` (edit path):
    `update messages set content = trimmed where id = msgId and sender_id = requester`.
    A row is modified iff it matches both filters. -/
def editRow (msgId requester : Nat) (newContent : String) (m : Message) : Message :=
  if m.id == msgId && m.sender_id == requester then { m with content := newContent } else m

/-- The edit statement of `sendMessage` (edit path) as run against the store:
    every modified row must still satisfy `messages_content_check`, otherwise
    the update fails and no row changes. -/
def editContent (store : Store) (msgId requester : Nat) (newContent : String) :
    Option Store :=
  if store.all fun m =>
      !(m.id == msgId && m.sender_id == requester)
        || contentCheck newContent m.attachment_url then
    some (store.map (editRow msgId requester newContent))
  else
    none

/-- `deleteMessage` in `src/app/startup/[id].tsx`:
    `delete from messages where id = msgId and sender_id = requester`
    (the client filter; the delete policy of the media migration imposes the
    same `sender_id` restriction). Matching no row is not an error. -/
def deleteMessage (store : Store) (msgId requester : Nat) : Store :=
  store.filter fun m => !(m.id == msgId && m.sender_id == requester)

/-- One row of the batch update issued by `markAsRead`:
    `update messages set read = true
     where sender_id = counterpart and recipient_id = requester and read = false`. -/
def markRow (counterpart requester : Nat) (m : Message) : Message :=
  if m.sender_id == counterpart && m.recipient_id == requester && !m.read then
    { m with read := true }
  else m

/-- `markAsRead` in `src/app/startup/[id].tsx`: the batch update applied to
    every row of the store. -/
def markAsRead (store : Store) (counterpart requester : Nat) : Store :=
  store.map (markRow counterpart requester)

/-- The conversation filter of `fetchMessages`:
    `or(and(sender_id.eq.A,recipient_id.eq.B),and(sender_id.eq.B,recipient_id.eq.A))`. -/
def pairMatch (a b : Nat) (m : Message) : Bool :=
  (m.sender_id == a && m.recipient_id == b)
    || (m.sender_id == b && m.recipient_id == a)

/-- `fetchMessages` queries the conversation rows with
    `.order('created_at', { ascending: true })` and no further ordering key.
    A result list is a possible reply of the store iff it holds exactly the
    matching rows sorted by `created_at`; the order of rows with equal
    `created_at` is not constrained by the query. -/
def validListBetween (store : Store) (a b : Nat) (res : List Message) : Prop :=
  res.Perm (store.filter (pairMatch a b))
    ∧ res.Pairwise fun x y => x.created_at ≤ y.created_at

/-- Look a message up by id, as the local handlers do (`msg.id === ...`). -/
def findById (store : Store) (msgId : Nat) : Option Message :=
  store.find? fun m => m.id == msgId

/-- The transient `PendingAttachment` of the chat screen: a picked local file
    awaiting upload (`uri`, `type`, `fileName`, optional `mimeType`/`size`). -/
structure PendingAttachment where
  uri : String
  type : MessageAttachmentType
  fileName : String
  mimeType : Option String
  size : Option Nat
deriving DecidableEq, Repr

/-- The value `uploadAttachment` resolves with on success: the public URL of
    the stored object plus the attachment columns for the new row. -/
structure AttachmentPayload where
  attachment_url : String
  attachment_type : MessageAttachmentType
  attachment_metadata : AttachmentMetadata
deriving DecidableEq, Repr

/-- `uploadAttachment` in `src/app/startup/[id].tsx`. The storage round-trip
    (fetch bytes, `storage.upload`, `getPublicUrl`) is the `outcome`
    parameter: `some (publicUrl, byteLength)` when the upload completed,
    `none` when any step failed (the catch branch returns `null`). On
    success the payload carries the public URL, the picked type, and
    metadata with `file_size = attachment.size ?? fileBytes.byteLength`. -/
def uploadAttachment (att : PendingAttachment) (outcome : Option (String × Nat)) :
    Option AttachmentPayload :=
  match outcome with
  | none => none
  | some (publicUrl, byteLength) =>
      some { attachment_url := publicUrl,
             attachment_type := att.type,
             attachment_metadata :=
               { file_name := att.fileName,
                 file_size := att.size.getD byteLength,
                 mime_type := att.mimeType } }

/-- The JavaScript `String.prototype.trim()` used on the draft
    (`newMessage.trim()`): strip whitespace from both ends. -/
def jsTrim (s : String) : String :=
  String.mk (((s.data.dropWhile Char.isWhitespace).reverse.dropWhile
    Char.isWhitespace).reverse)

/-- The composer state of the chat screen: the draft text `newMessage`, the
    `pendingAttachment`, and the message being edited, if any. -/
structure Composer where
  newMessage : String
  pendingAttachment : Option PendingAttachment
  editingMessage : Option Message
deriving DecidableEq, Repr

/-- `resetComposer`: clears text, pending attachment and edit target. -/
def emptyComposer : Composer :=
  { newMessage := "", pendingAttachment := none, editingMessage := none }

/-- The state `sendMessage` acts on: the message store plus the composer. -/
structure SendState where
  store : Store
  composer : Composer
deriving DecidableEq, Repr

/-- The row built by the insert of `sendMessage`: sender, recipient, trimmed
    content, `read: false`, and the attachment columns from the payload
    (`attachmentPayload?.field ?? null`). `newId` and `createdAt` are the
    server-assigned id and timestamp. -/
def mkMessage (self other : Nat) (content : String) (payload : Option AttachmentPayload)
    (newId createdAt : Nat) : Message :=
  { id := newId, sender_id := self, recipient_id := other, content := content,
    read := false, created_at := createdAt,
    attachment_url := payload.map (·.attachment_url),
    attachment_type := payload.map (·.attachment_type),
    attachment_metadata := payload.map (·.attachment_metadata) }

/-- The tail of the send path: insert the row; on success append and
    `resetComposer`, on a failed insert keep store and composer for retry. -/
def insertAndReset (st : SendState) (msg : Message) : SendState :=
  match createMessage st.store msg with
  | some store1 => { store := store1, composer := emptyComposer }
  | none => st

/-- `sendMessage` in `src/app/startup/[id].tsx`. Guards: nothing to send when
    the trimmed draft is empty and no attachment is pending; an edit with an
    empty trimmed draft returns before touching anything. The edit path runs
    the filtered content update; the create path uploads a pending
    attachment first — a failed upload (`outcome = none`) aborts the send
    with store and composer untouched — and only then inserts the row. -/
def sendMessage (self other : Nat) (st : SendState)
    (outcome : Option (String × Nat)) (newId createdAt : Nat) : SendState :=
  let trimmed := jsTrim st.composer.newMessage
  if trimmed.isEmpty && st.composer.pendingAttachment.isNone then st
  else
    match st.composer.editingMessage with
    | some editing =>
        if trimmed.isEmpty then st
        else
          match editContent st.store editing.id self trimmed with
          | some store1 => { store := store1, composer := emptyComposer }
          | none => st
    | none =>
        match st.composer.pendingAttachment with
        | some att =>
            match uploadAttachment att outcome with
            | none => st
            | some payload =>
                insertAndReset st (mkMessage self other trimmed (some payload) newId createdAt)
        | none => insertAndReset st (mkMessage self other trimmed none newId createdAt)

/-- `canSend` (line 1568): while editing only a non-empty trimmed draft can
    be sent; otherwise a non-empty draft or a pending attachment suffices. -/
def canSend (c : Composer) : Bool :=
  match c.editingMessage with
  | some _ => !(jsTrim c.newMessage).isEmpty
  | none => !(jsTrim c.newMessage).isEmpty || c.pendingAttachment.isSome

/-- `isRelevantMessage` in `src/app/startup/[id].tsx`: the record belongs to
    the open conversation in either direction. -/
def isRelevantMessage (self other : Nat) (m : Message) : Bool :=
  (m.sender_id == self && m.recipient_id == other)
    || (m.sender_id == other && m.recipient_id == self)

/-- The INSERT branch of `subscribeToMessages`: a relevant record is appended
    to the local cache (`[...prev, newMsg]`), and when its sender is the
    counterpart a mark-read batch is triggered. The Bool is that trigger. -/
def handleInsertEvent (self other : Nat) (cache : List Message) (m : Message) :
    List Message × Bool :=
  if isRelevantMessage self other m then (cache ++ [m], m.sender_id == other)
  else (cache, false)

/-- The UPDATE branch of `subscribeToMessages`: a relevant record replaces
    the cached row with its id (`{ ...msg, ...updatedMsg }` with a full new
    row spreads to the new row). -/
def handleUpdateEvent (self other : Nat) (cache : List Message) (u : Message) :
    List Message :=
  if isRelevantMessage self other u then
    cache.map fun msg => if msg.id == u.id then u else msg
  else cache

/-- The DELETE branch of `subscribeToMessages`: a relevant record removes the
    cached row with its id. -/
def handleDeleteEvent (self other : Nat) (cache : List Message) (d : Message) :
    List Message :=
  if isRelevantMessage self other d then
    cache.filter fun msg => !(msg.id == d.id)
  else cache

/-- The fallback poll (`fetchMessages` every 5 seconds): `setMessages(data)`
    replaces the local cache wholesale with the fetched list. -/
def pollResync (res : List Message) (_cache : List Message) : List Message :=
  res

/-- The counterpart of a message relative to the viewing user, as computed in
    `fetchConversations`: `msg.sender_id === user.id ? msg.recipient_id : msg.sender_id`. -/
def counterpartOf (viewer : Nat) (m : Message) : Nat :=
  if m.sender_id == viewer then m.recipient_id else m.sender_id

/-- `getMessagePreview` in `src/app/(tabs)/_layout.tsx`: non-blank content,
    else a placeholder by attachment type, else a generic fallback. -/
def getMessagePreview (m : Message) : String :=
  if !(jsTrim m.content).isEmpty then m.content
  else
    match m.attachment_type with
    | some MessageAttachmentType.image => "📷 Photo"
    | some MessageAttachmentType.video => "🎥 Video"
    | some MessageAttachmentType.document => "📄 Document"
    | none => "New message"

/-- The derived `Conversation` row of the conversation list screen. -/
structure Conversation where
  id : Nat
  otherUserId : Nat
  otherUserName : String
  lastMessage : String
  lastMessageTime : Nat
  unreadCount : Nat
deriving DecidableEq, Repr

/-- The unread-bump condition of the `fetchConversations` loop for a message
    and a counterpart: an unread message from that counterpart to the
    viewer (`msg.sender_id === otherUserId && msg.recipient_id === user.id
    && !msg.read`). -/
def bumpPred (viewer k : Nat) (m : Message) : Bool :=
  m.sender_id == k && m.recipient_id == viewer && !m.read

/-- The row inserted by `fetchConversations` for a counterpart seen for the
    first time: preview and time from the current message, unread count 0,
    name from the profile lookup with the `'User'` fallback. -/
def newConv (names : Nat → Option String) (other : Nat) (m : Message) : Conversation :=
  { id := other, otherUserId := other, otherUserName := (names other).getD "User",
    lastMessage := getMessagePreview m, lastMessageTime := m.created_at,
    unreadCount := 0 }

/-- The unread bump of `fetchConversations`, applied to the map entry of the
    counterpart (`conversationMap.get(otherUserId)!.unreadCount += 1`). -/
def bumpRow (other : Nat) (c : Conversation) : Conversation :=
  if c.otherUserId == other then { c with unreadCount := c.unreadCount + 1 } else c

/-- One loop iteration of `fetchConversations`: insert a row for an unseen
    counterpart, then bump the counterpart's unread count when the message
    is an unread inbound one. -/
def convStep (viewer : Nat) (names : Nat → Option String)
    (acc : List Conversation) (m : Message) : List Conversation :=
  let other := counterpartOf viewer m
  let acc1 :=
    if acc.any fun c => c.otherUserId == other then acc
    else acc ++ [newConv names other m]
  if bumpPred viewer other m then acc1.map (bumpRow other)
  else acc1

/-- The grouping loop of `fetchConversations` over the fetched messages (in
    `created_at` descending order), starting from an empty map; the map keeps
    insertion order, so it is an association list. -/
def buildConversations (viewer : Nat) (names : Nat → Option String)
    (msgs : List Message) : List Conversation :=
  msgs.foldl (convStep viewer names) []

/-- The fetch filter of `fetchConversations`:
    `or(sender_id.eq.viewer,recipient_id.eq.viewer)`. -/
def participantFilter (viewer : Nat) (store : Store) : List Message :=
  store.filter fun m => m.sender_id == viewer || m.recipient_id == viewer


/-- The number of stored unread messages from `counterpart` to `viewer` —
    the specification's unread count. -/
def specUnread (store : Store) (viewer counterpart : Nat) : Nat :=
  (store.filter (bumpPred viewer counterpart)).length

/-- Look up the conversation row of a counterpart in the accumulator. -/
def findConv (convs : List Conversation) (k : Nat) : Option Conversation :=
  convs.find? fun c => c.otherUserId == k


/-- A row passing `messages_content_check` never has both empty content and a
    null attachment reference. -/
theorem contentCheck_not_both_empty {c : String} {u : Option String}
    (h : contentCheck c u = true) : ¬(c = "" ∧ u = none) := by
  rintro ⟨rfl, rfl⟩
  simp [contentCheck] at h

/-- With pairwise-distinct ids, membership plus id equality pins the row. -/
theorem eq_of_mem_id {store : Store} {x m : Message}
    (hx : x ∈ store) (hm : m ∈ store)
    (hnodup : store.Pairwise fun a b => a.id ≠ b.id) (hid : x.id = m.id) :
    x = m := by
  induction store with
  | nil => cases hx
  | cons h t ih =>
    rcases List.pairwise_cons.mp hnodup with ⟨hhead, htail⟩
    rcases List.mem_cons.mp hx with rfl | hx'
    · rcases List.mem_cons.mp hm with rfl | hm'
      · rfl
      · exact absurd hid (hhead m hm')
    · rcases List.mem_cons.mp hm with rfl | hm'
      · exact absurd hid.symm (hhead x hx')
      · exact ih hx' hm' htail

/-- `find?` by id returns the member itself when ids are pairwise distinct. -/
theorem findById_of_mem {store : Store} {m : Message}
    (hm : m ∈ store) (hnodup : store.Pairwise fun a b => a.id ≠ b.id) :
    findById store m.id = some m := by
  induction store with
  | nil => cases hm
  | cons h t ih =>
    rcases List.pairwise_cons.mp hnodup with ⟨hhead, htail⟩
    rcases List.mem_cons.mp hm with rfl | hm'
    · simp [findById]
    · have hne : (h.id == m.id) = false := beq_eq_false_iff_ne.mpr (hhead m hm')
      simp only [findById, List.find?_cons, hne]
      exact ih hm' htail

/-- Row maps that keep ids fixed commute with lookup by id. -/
theorem findById_map_of_mem {store : Store} {m : Message} {f : Message → Message}
    (hf : ∀ x, (f x).id = x.id)
    (hm : m ∈ store) (hnodup : store.Pairwise fun a b => a.id ≠ b.id) :
    findById (store.map f) m.id = some (f m) := by
  have hcomp : ((fun x : Message => x.id == m.id) ∘ f)
      = fun x : Message => x.id == m.id := by
    funext x
    simp [Function.comp, hf]
  unfold findById
  rw [List.find?_map, hcomp]
  rw [show store.find? (fun x : Message => x.id == m.id) = some m from findById_of_mem hm hnodup]
  rfl

/-- `editRow` never changes the id column. -/
theorem editRow_id (msgId r : Nat) (c : String) (m : Message) :
    (editRow msgId r c m).id = m.id := by
  unfold editRow
  split <;> rfl

/-- `markRow` never changes the id column. -/
theorem markRow_id (cpt r : Nat) (m : Message) :
    (markRow cpt r m).id = m.id := by
  unfold markRow
  split <;> rfl

/-- **C1**: every store whose rows satisfy `messages_content_check` keeps that
    invariant under `createMessage` and under `editContent`: every row of a
    successor store has content of length 1..1000, or a non-null
    `attachment_url` and content of length at most 1000, and no row has both
    empty content and a null `attachment_url`. -/
theorem create_edit_preserve_content_invariant
    (store : Store) (m : Message) (msgId requester : Nat) (newContent : String)
    (hstore : ∀ x ∈ store, contentCheck x.content x.attachment_url = true) :
    (∀ s, createMessage store m = some s →
       ∀ x ∈ s, contentCheck x.content x.attachment_url = true
         ∧ ¬(x.content = "" ∧ x.attachment_url = none))
    ∧ (∀ s, editContent store msgId requester newContent = some s →
       ∀ x ∈ s, contentCheck x.content x.attachment_url = true
         ∧ ¬(x.content = "" ∧ x.attachment_url = none)) := by
  constructor
  · intro s hs x hx
    unfold createMessage at hs
    split at hs
    case isTrue hc =>
      cases hs
      rcases List.mem_append.mp hx with hx' | hx'
      · exact ⟨hstore x hx', contentCheck_not_both_empty (hstore x hx')⟩
      · rcases List.mem_singleton.mp hx' with rfl
        exact ⟨hc, contentCheck_not_both_empty hc⟩
    case isFalse hc => cases hs
  · intro s hs x hx
    unfold editContent at hs
    split at hs
    case isTrue hall =>
      cases hs
      rcases List.mem_map.mp hx with ⟨y, hy, rfl⟩
      have hy' := hstore y hy
      have hall' := List.all_eq_true.mp hall y hy
      unfold editRow
      split
      case isTrue hmatch =>
        have hnew : contentCheck newContent y.attachment_url = true := by
          simp only [hmatch, Bool.not_true, Bool.false_or] at hall'
          exact hall'
        exact ⟨hnew, contentCheck_not_both_empty hnew⟩
      case isFalse hmatch =>
        exact ⟨hy', contentCheck_not_both_empty hy'⟩
    case isFalse => cases hs

/-- Concrete instance of the content invariant, evaluated on a one-row store. -/
theorem create_edit_preserve_content_invariant_witness :
    (∀ x ∈ ([⟨1, 10, 20, "hi", false, 0, none, none, none⟩] : Store),
       contentCheck x.content x.attachment_url = true)
    ∧ ((∀ s, createMessage [⟨1, 10, 20, "hi", false, 0, none, none, none⟩]
            ⟨2, 20, 10, "yo", false, 1, none, none, none⟩ = some s →
         ∀ x ∈ s, contentCheck x.content x.attachment_url = true
           ∧ ¬(x.content = "" ∧ x.attachment_url = none))
      ∧ (∀ s, editContent [⟨1, 10, 20, "hi", false, 0, none, none, none⟩]
            1 10 "edited" = some s →
         ∀ x ∈ s, contentCheck x.content x.attachment_url = true
           ∧ ¬(x.content = "" ∧ x.attachment_url = none))) :=
  ⟨by decide,
   create_edit_preserve_content_invariant
     [⟨1, 10, 20, "hi", false, 0, none, none, none⟩]
     ⟨2, 20, 10, "yo", false, 1, none, none, none⟩ 1 10 "edited" (by decide)⟩

/-- **C2**: on a store with distinct ids, the filtered statements of the chat
    screen give edit and delete effect exactly to the sender and mark-read
    effect exactly to the recipient: the row vanishes under `deleteMessage`
    iff the requester is its sender; `editContent` always reports success and
    rewrites the row's content iff the requester is its sender; `markAsRead`
    on the row's conversation flips its unread flag iff the requester is its
    recipient. -/
theorem edit_delete_markRead_ownership
    (store : Store) (m : Message) (requester : Nat) (newContent : String)
    (hm : m ∈ store)
    (hnodup : store.Pairwise fun a b => a.id ≠ b.id)
    (hcheck : contentCheck newContent m.attachment_url = true)
    (hunread : m.read = false) :
    (m ∈ deleteMessage store m.id requester ↔ requester ≠ m.sender_id)
    ∧ editContent store m.id requester newContent
        = some (store.map (editRow m.id requester newContent))
    ∧ findById (store.map (editRow m.id requester newContent)) m.id
        = some (if requester = m.sender_id then { m with content := newContent } else m)
    ∧ findById (markAsRead store m.sender_id requester) m.id
        = some (if requester = m.recipient_id then { m with read := true } else m) := by
  refine ⟨?_, ?_, ?_, ?_⟩
  · unfold deleteMessage
    rw [List.mem_filter]
    constructor
    · rintro ⟨-, hpred⟩ heq
      simp [heq.symm] at hpred
    · intro hne
      refine ⟨hm, ?_⟩
      have : (m.sender_id == requester) = false :=
        beq_eq_false_iff_ne.mpr fun h => hne h.symm
      simp [this]
  · unfold editContent
    rw [if_pos]
    apply List.all_eq_true.mpr
    intro x hx
    by_cases hmatch : (x.id == m.id && x.sender_id == requester) = true
    · have hand := hmatch
      rw [Bool.and_eq_true] at hand
      have hix : x.id = m.id := beq_iff_eq.mp hand.1
      have hxm : x = m := eq_of_mem_id hx hm hnodup hix
      subst hxm
      simp [hmatch, hcheck]
    · simp [Bool.eq_false_iff.mpr hmatch]
  · rw [findById_map_of_mem (editRow_id m.id requester newContent) hm hnodup]
    unfold editRow
    by_cases hs : requester = m.sender_id
    · simp [hs]
    · have : (m.sender_id == requester) = false :=
        beq_eq_false_iff_ne.mpr fun h => hs h.symm
      simp [this, hs]
  · unfold markAsRead
    rw [findById_map_of_mem (markRow_id m.sender_id requester) hm hnodup]
    unfold markRow
    by_cases hr : requester = m.recipient_id
    · simp [hr, hunread]
    · have : (m.recipient_id == requester) = false :=
        beq_eq_false_iff_ne.mpr fun h => hr h.symm
      simp [this, hr]

/-- Concrete instance of the ownership property on a one-row store with the
    sender as requester. -/
theorem edit_delete_markRead_ownership_witness :
    ((⟨1, 10, 20, "hi", false, 0, none, none, none⟩ : Message)
        ∈ ([⟨1, 10, 20, "hi", false, 0, none, none, none⟩] : Store)
      ∧ ([⟨1, 10, 20, "hi", false, 0, none, none, none⟩] : Store).Pairwise
          (fun a b => a.id ≠ b.id)
      ∧ contentCheck "edited"
          (⟨1, 10, 20, "hi", false, 0, none, none, none⟩ : Message).attachment_url = true
      ∧ (⟨1, 10, 20, "hi", false, 0, none, none, none⟩ : Message).read = false)
    ∧ (((⟨1, 10, 20, "hi", false, 0, none, none, none⟩ : Message)
          ∈ deleteMessage [⟨1, 10, 20, "hi", false, 0, none, none, none⟩]
              (⟨1, 10, 20, "hi", false, 0, none, none, none⟩ : Message).id 10
        ↔ (10 : Nat) ≠ (⟨1, 10, 20, "hi", false, 0, none, none, none⟩ : Message).sender_id)
      ∧ editContent [⟨1, 10, 20, "hi", false, 0, none, none, none⟩]
            (⟨1, 10, 20, "hi", false, 0, none, none, none⟩ : Message).id 10 "edited"
          = some (([⟨1, 10, 20, "hi", false, 0, none, none, none⟩] : Store).map
              (editRow (⟨1, 10, 20, "hi", false, 0, none, none, none⟩ : Message).id 10 "edited"))
      ∧ findById (([⟨1, 10, 20, "hi", false, 0, none, none, none⟩] : Store).map
              (editRow (⟨1, 10, 20, "hi", false, 0, none, none, none⟩ : Message).id 10 "edited"))
            (⟨1, 10, 20, "hi", false, 0, none, none, none⟩ : Message).id
          = some (if (10 : Nat) = (⟨1, 10, 20, "hi", false, 0, none, none, none⟩ : Message).sender_id
              then { (⟨1, 10, 20, "hi", false, 0, none, none, none⟩ : Message) with content := "edited" }
              else ⟨1, 10, 20, "hi", false, 0, none, none, none⟩)
      ∧ findById (markAsRead [⟨1, 10, 20, "hi", false, 0, none, none, none⟩]
              (⟨1, 10, 20, "hi", false, 0, none, none, none⟩ : Message).sender_id 10)
            (⟨1, 10, 20, "hi", false, 0, none, none, none⟩ : Message).id
          = some (if (10 : Nat) = (⟨1, 10, 20, "hi", false, 0, none, none, none⟩ : Message).recipient_id
              then { (⟨1, 10, 20, "hi", false, 0, none, none, none⟩ : Message) with read := true }
              else ⟨1, 10, 20, "hi", false, 0, none, none, none⟩)) :=
  ⟨⟨by decide, by decide, by decide, rfl⟩,
   edit_delete_markRead_ownership
     [⟨1, 10, 20, "hi", false, 0, none, none, none⟩]
     ⟨1, 10, 20, "hi", false, 0, none, none, none⟩ 10 "edited"
     (by decide) (by decide) (by decide) rfl⟩

/-- A row already marked is a fixed point of `markRow`. -/
theorem markRow_of_read {m : Message} (cpt r : Nat) (hread : m.read = true) :
    markRow cpt r m = m := by
  simp [markRow, hread]

/-- Re-applying `markRow` changes nothing: the first application leaves no
    matching unread row behind. -/
theorem markRow_idem (cpt r : Nat) (m : Message) :
    markRow cpt r (markRow cpt r m) = markRow cpt r m := by
  by_cases h : (m.sender_id == cpt && m.recipient_id == r && !m.read) = true
  · simp [markRow, h]
  · simp [markRow, Bool.eq_false_iff.mpr h]

/-- **C9**: the batch mark-read is idempotent — running it twice equals
    running it once — and a message whose `read` flag is already `true` is
    left untouched by the batch (a no-op, never an error: the statement's
    `read = false` filter simply matches no such row). -/
theorem markAsRead_idempotent (store : Store) (counterpart requester : Nat) :
    markAsRead (markAsRead store counterpart requester) counterpart requester
      = markAsRead store counterpart requester
    ∧ ∀ m ∈ store, m.read = true → m ∈ markAsRead store counterpart requester := by
  constructor
  · unfold markAsRead
    rw [List.map_map]
    exact List.map_congr_left fun m _ => markRow_idem counterpart requester m
  · intro m hm hread
    exact List.mem_map.mpr ⟨m, hm, markRow_of_read counterpart requester hread⟩

/-- Concrete instance: an already-read row survives the batch unchanged. -/
theorem markAsRead_idempotent_witness :
    ((⟨3, 5, 6, "seen", true, 2, none, none, none⟩ : Message).read = true
      ∧ (⟨3, 5, 6, "seen", true, 2, none, none, none⟩ : Message)
          ∈ markAsRead [⟨3, 5, 6, "seen", true, 2, none, none, none⟩] 5 6)
    ∧ markAsRead (markAsRead [⟨3, 5, 6, "seen", true, 2, none, none, none⟩] 5 6) 5 6
        = markAsRead [⟨3, 5, 6, "seen", true, 2, none, none, none⟩] 5 6 :=
  ⟨⟨rfl,
    (markAsRead_idempotent [⟨3, 5, 6, "seen", true, 2, none, none, none⟩] 5 6).2
      ⟨3, 5, 6, "seen", true, 2, none, none, none⟩ (by decide) rfl⟩,
   (markAsRead_idempotent [⟨3, 5, 6, "seen", true, 2, none, none, none⟩] 5 6).1⟩

/-- A row of the store after `insertAndReset` is an old row or the new one. -/
theorem insertAndReset_store_sub (st : SendState) (msg x : Message)
    (h : x ∈ (insertAndReset st msg).store) : x ∈ st.store ∨ x = msg := by
  unfold insertAndReset at h
  cases hc : createMessage st.store msg with
  | none =>
    rw [hc] at h
    exact Or.inl h
  | some s1 =>
    rw [hc] at h
    unfold createMessage at hc
    split at hc
    · cases hc
      rcases List.mem_append.mp h with h1 | h1
      · exact Or.inl h1
      · exact Or.inr (List.mem_singleton.mp h1)
    · cases hc

/-- **C3**: with an attachment pending and no edit in progress, a failed
    upload (`outcome = none`) aborts the send — the store is unchanged and
    the composer keeps its text and pending attachment for retry — and any
    message the send adds to the store carries an `attachment_url` only if it
    is the public URL of the completed upload. -/
theorem upload_failure_aborts_send
    (self other : Nat) (st : SendState) (att : PendingAttachment)
    (outcome : Option (String × Nat)) (newId createdAt : Nat)
    (hatt : st.composer.pendingAttachment = some att)
    (hnoedit : st.composer.editingMessage = none) :
    (outcome = none →
       sendMessage self other st outcome newId createdAt = st
       ∧ (sendMessage self other st outcome newId createdAt).composer.pendingAttachment
           = some att
       ∧ (sendMessage self other st outcome newId createdAt).composer.newMessage
           = st.composer.newMessage)
    ∧ ∀ msg ∈ (sendMessage self other st outcome newId createdAt).store,
        msg ∉ st.store →
        ∀ u, msg.attachment_url = some u →
          ∃ byteLength, outcome = some (u, byteLength) := by
  constructor
  · rintro rfl
    have h : sendMessage self other st none newId createdAt = st := by
      simp [sendMessage, hnoedit, hatt, uploadAttachment]
    rw [h]
    exact ⟨rfl, hatt, rfl⟩
  · intro msg hmsg hnot u hu
    cases outcome with
    | none =>
      simp only [sendMessage, hnoedit, hatt, Option.isNone_some, Bool.and_false,
        Bool.false_eq_true, if_false, uploadAttachment] at hmsg
      exact absurd hmsg hnot
    | some pr =>
      obtain ⟨url, nbytes⟩ := pr
      simp only [sendMessage, hnoedit, hatt, Option.isNone_some, Bool.and_false,
        Bool.false_eq_true, if_false, uploadAttachment] at hmsg
      rcases insertAndReset_store_sub st _ msg hmsg with hmem | rfl
      · exact absurd hmem hnot
      · simp only [mkMessage, Option.map_some] at hu
        cases hu
        exact ⟨nbytes, rfl⟩

/-- Concrete instance: a pending image whose upload fails leaves a one-row
    store and the composer untouched. -/
theorem upload_failure_aborts_send_witness :
    ((⟨[⟨1, 10, 20, "hi", false, 0, none, none, none⟩],
        ⟨"hello", some ⟨"file:///a.jpg", MessageAttachmentType.image, "a.jpg",
          some "image/jpeg", some 7⟩, none⟩⟩ : SendState).composer.pendingAttachment
        = some ⟨"file:///a.jpg", MessageAttachmentType.image, "a.jpg",
            some "image/jpeg", some 7⟩
      ∧ (⟨[⟨1, 10, 20, "hi", false, 0, none, none, none⟩],
          ⟨"hello", some ⟨"file:///a.jpg", MessageAttachmentType.image, "a.jpg",
            some "image/jpeg", some 7⟩, none⟩⟩ : SendState).composer.editingMessage = none)
    ∧ ((none = (none : Option (String × Nat)) →
         sendMessage 10 20
             ⟨[⟨1, 10, 20, "hi", false, 0, none, none, none⟩],
              ⟨"hello", some ⟨"file:///a.jpg", MessageAttachmentType.image, "a.jpg",
                some "image/jpeg", some 7⟩, none⟩⟩ none 9 9
           = ⟨[⟨1, 10, 20, "hi", false, 0, none, none, none⟩],
              ⟨"hello", some ⟨"file:///a.jpg", MessageAttachmentType.image, "a.jpg",
                some "image/jpeg", some 7⟩, none⟩⟩
         ∧ (sendMessage 10 20
             ⟨[⟨1, 10, 20, "hi", false, 0, none, none, none⟩],
              ⟨"hello", some ⟨"file:///a.jpg", MessageAttachmentType.image, "a.jpg",
                some "image/jpeg", some 7⟩, none⟩⟩ none 9 9).composer.pendingAttachment
           = some ⟨"file:///a.jpg", MessageAttachmentType.image, "a.jpg",
               some "image/jpeg", some 7⟩
         ∧ (sendMessage 10 20
             ⟨[⟨1, 10, 20, "hi", false, 0, none, none, none⟩],
              ⟨"hello", some ⟨"file:///a.jpg", MessageAttachmentType.image, "a.jpg",
                some "image/jpeg", some 7⟩, none⟩⟩ none 9 9).composer.newMessage
           = "hello")
      ∧ ∀ msg ∈ (sendMessage 10 20
             ⟨[⟨1, 10, 20, "hi", false, 0, none, none, none⟩],
              ⟨"hello", some ⟨"file:///a.jpg", MessageAttachmentType.image, "a.jpg",
                some "image/jpeg", some 7⟩, none⟩⟩ none 9 9).store,
          msg ∉ [(⟨1, 10, 20, "hi", false, 0, none, none, none⟩ : Message)] →
          ∀ u, msg.attachment_url = some u →
            ∃ byteLength, (none : Option (String × Nat)) = some (u, byteLength)) :=
  ⟨⟨rfl, rfl⟩,
   upload_failure_aborts_send 10 20
     ⟨[⟨1, 10, 20, "hi", false, 0, none, none, none⟩],
      ⟨"hello", some ⟨"file:///a.jpg", MessageAttachmentType.image, "a.jpg",
        some "image/jpeg", some 7⟩, none⟩⟩
     ⟨"file:///a.jpg", MessageAttachmentType.image, "a.jpg", some "image/jpeg", some 7⟩
     none 9 9 rfl rfl⟩

/-- **C10**: an edit whose trimmed draft is empty cannot be sent (`canSend`
    is false) and, if attempted, returns before issuing any update: the
    store — including an attachment-carrying edited message — is unchanged
    and the composer state is kept. -/
theorem empty_edit_is_noop
    (self other : Nat) (st : SendState) (editing : Message)
    (outcome : Option (String × Nat)) (newId createdAt : Nat)
    (hedit : st.composer.editingMessage = some editing)
    (hempty : (jsTrim st.composer.newMessage).isEmpty = true) :
    canSend st.composer = false
    ∧ sendMessage self other st outcome newId createdAt = st := by
  constructor
  · simp [canSend, hedit, hempty]
  · by_cases hp : st.composer.pendingAttachment.isNone = true
    · simp [sendMessage, hempty, hp]
    · simp [sendMessage, hempty, Bool.eq_false_iff.mpr hp, hedit]

/-- Concrete instance: editing an attachment-carrying message with a blank
    draft changes nothing. -/
theorem empty_edit_is_noop_witness :
    ((⟨[⟨7, 10, 20, "pic", false, 0, some "u", some MessageAttachmentType.image,
          some ⟨"p.jpg", 100, some "image/jpeg"⟩⟩],
        ⟨"  ", none,
         some ⟨7, 10, 20, "pic", false, 0, some "u", some MessageAttachmentType.image,
           some ⟨"p.jpg", 100, some "image/jpeg"⟩⟩⟩⟩ : SendState).composer.editingMessage
        = some ⟨7, 10, 20, "pic", false, 0, some "u", some MessageAttachmentType.image,
            some ⟨"p.jpg", 100, some "image/jpeg"⟩⟩
      ∧ (jsTrim (⟨[⟨7, 10, 20, "pic", false, 0, some "u", some MessageAttachmentType.image,
            some ⟨"p.jpg", 100, some "image/jpeg"⟩⟩],
          ⟨"  ", none,
           some ⟨7, 10, 20, "pic", false, 0, some "u", some MessageAttachmentType.image,
             some ⟨"p.jpg", 100, some "image/jpeg"⟩⟩⟩⟩ : SendState).composer.newMessage).isEmpty
        = true)
    ∧ (canSend (⟨[⟨7, 10, 20, "pic", false, 0, some "u", some MessageAttachmentType.image,
            some ⟨"p.jpg", 100, some "image/jpeg"⟩⟩],
          ⟨"  ", none,
           some ⟨7, 10, 20, "pic", false, 0, some "u", some MessageAttachmentType.image,
             some ⟨"p.jpg", 100, some "image/jpeg"⟩⟩⟩⟩ : SendState).composer = false
      ∧ sendMessage 10 20
          ⟨[⟨7, 10, 20, "pic", false, 0, some "u", some MessageAttachmentType.image,
              some ⟨"p.jpg", 100, some "image/jpeg"⟩⟩],
            ⟨"  ", none,
             some ⟨7, 10, 20, "pic", false, 0, some "u", some MessageAttachmentType.image,
               some ⟨"p.jpg", 100, some "image/jpeg"⟩⟩⟩⟩ none 9 9
        = ⟨[⟨7, 10, 20, "pic", false, 0, some "u", some MessageAttachmentType.image,
              some ⟨"p.jpg", 100, some "image/jpeg"⟩⟩],
            ⟨"  ", none,
             some ⟨7, 10, 20, "pic", false, 0, some "u", some MessageAttachmentType.image,
               some ⟨"p.jpg", 100, some "image/jpeg"⟩⟩⟩⟩) :=
  ⟨⟨rfl, by decide⟩,
   empty_edit_is_noop 10 20
     ⟨[⟨7, 10, 20, "pic", false, 0, some "u", some MessageAttachmentType.image,
         some ⟨"p.jpg", 100, some "image/jpeg"⟩⟩],
       ⟨"  ", none,
        some ⟨7, 10, 20, "pic", false, 0, some "u", some MessageAttachmentType.image,
          some ⟨"p.jpg", 100, some "image/jpeg"⟩⟩⟩⟩
     ⟨7, 10, 20, "pic", false, 0, some "u", some MessageAttachmentType.image,
       some ⟨"p.jpg", 100, some "image/jpeg"⟩⟩
     none 9 9 rfl (by decide)⟩

/-- `isRelevantMessage` decides membership of the open conversation. -/
theorem isRelevantMessage_iff (self other : Nat) (m : Message) :
    isRelevantMessage self other m = true ↔
      (m.sender_id = self ∧ m.recipient_id = other)
        ∨ (m.sender_id = other ∧ m.recipient_id = self) := by
  simp [isRelevantMessage]

/-- **C4 (counterexample)**: the INSERT handler appends a relevant record
    even when a message with its id is already in the local cache — the
    cached message is appended a second time, so "never appended a second
    time" fails. -/
theorem insert_event_dedup_counterexample :
    (⟨7, 2, 1, "hey", false, 3, none, none, none⟩ : Message)
        ∈ [(⟨7, 2, 1, "hey", false, 3, none, none, none⟩ : Message)]
    ∧ (handleInsertEvent 1 2 [⟨7, 2, 1, "hey", false, 3, none, none, none⟩]
          ⟨7, 2, 1, "hey", false, 3, none, none, none⟩).1
        = [⟨7, 2, 1, "hey", false, 3, none, none, none⟩,
           ⟨7, 2, 1, "hey", false, 3, none, none, none⟩]
    ∧ List.count (⟨7, 2, 1, "hey", false, 3, none, none, none⟩ : Message)
        (handleInsertEvent 1 2 [⟨7, 2, 1, "hey", false, 3, none, none, none⟩]
          ⟨7, 2, 1, "hey", false, 3, none, none, none⟩).1 = 2 := by
  decide

/-- **C4 (amended)**: the INSERT handler appends every relevant record to the
    cache regardless of whether its id is already present (a present message
    is duplicated), leaves the cache unchanged for irrelevant records, and
    triggers the mark-read batch exactly when the record is relevant and its
    sender is the counterpart. -/
theorem insert_event_append_and_markRead
    (self other : Nat) (cache : List Message) (m : Message) :
    ((m.sender_id = self ∧ m.recipient_id = other)
        ∨ (m.sender_id = other ∧ m.recipient_id = self) →
       (handleInsertEvent self other cache m).1 = cache ++ [m]
       ∧ ((handleInsertEvent self other cache m).2 = true ↔ m.sender_id = other))
    ∧ (¬((m.sender_id = self ∧ m.recipient_id = other)
        ∨ (m.sender_id = other ∧ m.recipient_id = self)) →
       handleInsertEvent self other cache m = (cache, false))
    ∧ (∀ x, x ∈ (handleInsertEvent self other cache m).1 ↔
         x ∈ cache ∨ (isRelevantMessage self other m = true ∧ x = m))
    ∧ (isRelevantMessage self other m = true → m ∈ cache →
       List.count m (handleInsertEvent self other cache m).1
         = List.count m cache + 1) := by
  refine ⟨?_, ?_, ?_, ?_⟩
  · intro h
    rw [handleInsertEvent, if_pos ((isRelevantMessage_iff self other m).mpr h)]
    exact ⟨rfl, beq_iff_eq⟩
  · intro h
    rw [handleInsertEvent,
      if_neg (fun hc => h ((isRelevantMessage_iff self other m).mp hc))]
  · intro x
    by_cases hrel : isRelevantMessage self other m = true
    · simp [handleInsertEvent, hrel]
    · simp [handleInsertEvent, Bool.eq_false_iff.mpr hrel, hrel]
  · intro hrel hm
    simp [handleInsertEvent, hrel, List.count_append]

/-- Concrete instance of the amended INSERT-handler description. -/
theorem insert_event_append_and_markRead_witness :
    (((⟨7, 2, 1, "hey", false, 3, none, none, none⟩ : Message).sender_id = 1
          ∧ (⟨7, 2, 1, "hey", false, 3, none, none, none⟩ : Message).recipient_id = 2)
        ∨ ((⟨7, 2, 1, "hey", false, 3, none, none, none⟩ : Message).sender_id = 2
          ∧ (⟨7, 2, 1, "hey", false, 3, none, none, none⟩ : Message).recipient_id = 1))
    ∧ isRelevantMessage 1 2 ⟨7, 2, 1, "hey", false, 3, none, none, none⟩ = true
    ∧ (⟨7, 2, 1, "hey", false, 3, none, none, none⟩ : Message)
        ∈ [(⟨7, 2, 1, "hey", false, 3, none, none, none⟩ : Message)]
    ∧ (handleInsertEvent 1 2 [⟨7, 2, 1, "hey", false, 3, none, none, none⟩]
          ⟨7, 2, 1, "hey", false, 3, none, none, none⟩).1
        = [(⟨7, 2, 1, "hey", false, 3, none, none, none⟩ : Message)]
            ++ [⟨7, 2, 1, "hey", false, 3, none, none, none⟩]
    ∧ List.count (⟨7, 2, 1, "hey", false, 3, none, none, none⟩ : Message)
        (handleInsertEvent 1 2 [⟨7, 2, 1, "hey", false, 3, none, none, none⟩]
          ⟨7, 2, 1, "hey", false, 3, none, none, none⟩).1
        = List.count (⟨7, 2, 1, "hey", false, 3, none, none, none⟩ : Message)
            [(⟨7, 2, 1, "hey", false, 3, none, none, none⟩ : Message)] + 1 :=
  ⟨Or.inr ⟨rfl, rfl⟩, by decide, by decide,
   ((insert_event_append_and_markRead 1 2
       [⟨7, 2, 1, "hey", false, 3, none, none, none⟩]
       ⟨7, 2, 1, "hey", false, 3, none, none, none⟩).1 (Or.inr ⟨rfl, rfl⟩)).1,
   (insert_event_append_and_markRead 1 2
       [⟨7, 2, 1, "hey", false, 3, none, none, none⟩]
       ⟨7, 2, 1, "hey", false, 3, none, none, none⟩).2.2.2 (by decide) (by decide)⟩

/-- **C5 (counterexample)**: applying the same logical insert twice — first
    through a poll resync whose authoritative list already holds the row,
    then through the feed's INSERT handler — leaves a different (duplicated)
    cache than applying it once through the resync. -/
theorem feed_after_resync_counterexample :
    validListBetween [⟨7, 2, 1, "hey", false, 3, none, none, none⟩] 1 2
        [⟨7, 2, 1, "hey", false, 3, none, none, none⟩]
    ∧ (handleInsertEvent 1 2
          (pollResync [⟨7, 2, 1, "hey", false, 3, none, none, none⟩] [])
          ⟨7, 2, 1, "hey", false, 3, none, none, none⟩).1
        ≠ pollResync [⟨7, 2, 1, "hey", false, 3, none, none, none⟩] [] := by
  refine ⟨⟨?_, ?_⟩, ?_⟩
  · have hf : ([⟨7, 2, 1, "hey", false, 3, none, none, none⟩] : Store).filter
        (pairMatch 1 2) = [⟨7, 2, 1, "hey", false, 3, none, none, none⟩] := by decide
    rw [hf]
  · simp
  · decide

/-- **C5 (amended)**: double application is harmless for update and delete
    events — the UPDATE and DELETE handlers are idempotent and are no-ops on
    a cache that already reflects them (as after a poll resync) — and a poll
    resync yields the authoritative list whatever the cache holds; insert
    events replayed after a resync, however, duplicate the row
    (`feed_after_resync_counterexample`). -/
theorem reconciliation_update_delete_idempotent
    (self other : Nat) (u d : Message) (c1 c2 cache res : List Message)
    (hu : ∀ x ∈ cache, x.id = u.id → x = u)
    (hd : ∀ x ∈ cache, x.id ≠ d.id) :
    handleUpdateEvent self other (handleUpdateEvent self other c1 u) u
      = handleUpdateEvent self other c1 u
    ∧ handleDeleteEvent self other (handleDeleteEvent self other c2 d) d
      = handleDeleteEvent self other c2 d
    ∧ handleUpdateEvent self other cache u = cache
    ∧ handleDeleteEvent self other cache d = cache
    ∧ ∀ c3, pollResync res c3 = pollResync res cache := by
  refine ⟨?_, ?_, ?_, ?_, fun c3 => rfl⟩
  · by_cases hrel : isRelevantMessage self other u = true
    · simp only [handleUpdateEvent, hrel, if_true, List.map_map]
      apply List.map_congr_left
      intro x _
      by_cases hx : (x.id == u.id) = true
      · simp [Function.comp, hx]
      · simp [Function.comp, hx]
    · simp [handleUpdateEvent, hrel]
  · by_cases hrel : isRelevantMessage self other d = true
    · simp only [handleDeleteEvent, hrel, if_true, List.filter_filter]
      apply List.filter_congr
      intro x _
      simp [Bool.and_self]
    · simp [handleDeleteEvent, hrel]
  · by_cases hrel : isRelevantMessage self other u = true
    · simp only [handleUpdateEvent, hrel, if_true]
      have hmap : (cache.map fun msg => if msg.id == u.id then u else msg)
          = cache.map id := by
        apply List.map_congr_left
        intro x hx
        by_cases hid : (x.id == u.id) = true
        · rw [if_pos hid, hu x hx (beq_iff_eq.mp hid)]
          rfl
        · rw [if_neg (by simp [hid])]
          rfl
      rw [hmap, List.map_id]
    · simp [handleUpdateEvent, hrel]
  · by_cases hrel : isRelevantMessage self other d = true
    · simp only [handleDeleteEvent, hrel, if_true]
      apply List.filter_eq_self.mpr
      intro x hx
      simp [beq_eq_false_iff_ne.mpr (hd x hx)]
    · simp [handleDeleteEvent, hrel]

/-- Concrete instance of the update/delete reconciliation idempotence. -/
theorem reconciliation_update_delete_idempotent_witness :
    ((∀ x ∈ [(⟨7, 2, 1, "hey", true, 3, none, none, none⟩ : Message)],
        x.id = (⟨7, 2, 1, "hey", true, 3, none, none, none⟩ : Message).id →
          x = ⟨7, 2, 1, "hey", true, 3, none, none, none⟩)
      ∧ (∀ x ∈ [(⟨7, 2, 1, "hey", true, 3, none, none, none⟩ : Message)],
          x.id ≠ (⟨9, 1, 2, "bye", false, 4, none, none, none⟩ : Message).id))
    ∧ (handleUpdateEvent 1 2
          (handleUpdateEvent 1 2 [⟨7, 2, 1, "hey", true, 3, none, none, none⟩]
            ⟨7, 2, 1, "hey", true, 3, none, none, none⟩)
          ⟨7, 2, 1, "hey", true, 3, none, none, none⟩
        = handleUpdateEvent 1 2 [⟨7, 2, 1, "hey", true, 3, none, none, none⟩]
            ⟨7, 2, 1, "hey", true, 3, none, none, none⟩
      ∧ handleDeleteEvent 1 2
          (handleDeleteEvent 1 2 [⟨7, 2, 1, "hey", true, 3, none, none, none⟩]
            ⟨9, 1, 2, "bye", false, 4, none, none, none⟩)
          ⟨9, 1, 2, "bye", false, 4, none, none, none⟩
        = handleDeleteEvent 1 2 [⟨7, 2, 1, "hey", true, 3, none, none, none⟩]
            ⟨9, 1, 2, "bye", false, 4, none, none, none⟩
      ∧ handleUpdateEvent 1 2 [⟨7, 2, 1, "hey", true, 3, none, none, none⟩]
          ⟨7, 2, 1, "hey", true, 3, none, none, none⟩
        = [⟨7, 2, 1, "hey", true, 3, none, none, none⟩]
      ∧ handleDeleteEvent 1 2 [⟨7, 2, 1, "hey", true, 3, none, none, none⟩]
          ⟨9, 1, 2, "bye", false, 4, none, none, none⟩
        = [⟨7, 2, 1, "hey", true, 3, none, none, none⟩]
      ∧ ∀ c3, pollResync [] c3
          = pollResync [] [⟨7, 2, 1, "hey", true, 3, none, none, none⟩]) :=
  ⟨⟨by decide, by decide⟩,
   reconciliation_update_delete_idempotent 1 2
     ⟨7, 2, 1, "hey", true, 3, none, none, none⟩
     ⟨9, 1, 2, "bye", false, 4, none, none, none⟩
     [⟨7, 2, 1, "hey", true, 3, none, none, none⟩]
     [⟨7, 2, 1, "hey", true, 3, none, none, none⟩]
     [⟨7, 2, 1, "hey", true, 3, none, none, none⟩]
     [] (by decide) (by decide)⟩

/-- **C6 (counterexample)**: a possible `fetchMessages` reply — `created_at`
    ascending, no secondary ordering — that does not break the tie between
    two equal timestamps by ascending id. -/
theorem listBetween_tiebreak_counterexample :
    validListBetween
        [⟨2, 1, 2, "b", false, 5, none, none, none⟩,
         ⟨1, 2, 1, "a", false, 5, none, none, none⟩] 1 2
        [⟨2, 1, 2, "b", false, 5, none, none, none⟩,
         ⟨1, 2, 1, "a", false, 5, none, none, none⟩]
    ∧ ¬ ([⟨2, 1, 2, "b", false, 5, none, none, none⟩,
          ⟨1, 2, 1, "a", false, 5, none, none, none⟩] : List Message).Pairwise
        (fun x y => x.created_at < y.created_at
          ∨ (x.created_at = y.created_at ∧ x.id ≤ y.id)) := by
  refine ⟨⟨?_, ?_⟩, ?_⟩
  · have hf : ([⟨2, 1, 2, "b", false, 5, none, none, none⟩,
        ⟨1, 2, 1, "a", false, 5, none, none, none⟩] : Store).filter (pairMatch 1 2)
        = [⟨2, 1, 2, "b", false, 5, none, none, none⟩,
           ⟨1, 2, 1, "a", false, 5, none, none, none⟩] := by decide
    rw [hf]
  · simp
  · intro hpair
    rcases List.pairwise_cons.mp hpair with ⟨hrel, -⟩
    have := hrel ⟨1, 2, 1, "a", false, 5, none, none, none⟩ (by simp)
    simp at this

/-- **C6 (amended)**: any `fetchMessages` reply holds exactly the messages
    whose sender/recipient pair is the conversation in either direction —
    membership and multiplicities agree with the store's matching rows — in
    `created_at` ascending order; the relative order of equal timestamps is
    unspecified (no id tie-break). -/
theorem listBetween_exact_and_sorted
    (store : Store) (a b : Nat) (res : List Message)
    (h : validListBetween store a b res) :
    (∀ m, m ∈ res ↔ m ∈ store ∧ pairMatch a b m = true)
    ∧ (∀ m, List.count m res = List.count m (store.filter (pairMatch a b)))
    ∧ res.Pairwise (fun x y => x.created_at ≤ y.created_at) := by
  obtain ⟨hperm, hsort⟩ := h
  refine ⟨?_, fun m => hperm.count_eq m, hsort⟩
  intro m
  rw [hperm.mem_iff, List.mem_filter]

/-- Concrete instance of the amended `fetchMessages` description. -/
theorem listBetween_exact_and_sorted_witness :
    validListBetween [⟨4, 1, 2, "one", false, 6, none, none, none⟩] 1 2
        [⟨4, 1, 2, "one", false, 6, none, none, none⟩]
    ∧ ((∀ m, m ∈ [(⟨4, 1, 2, "one", false, 6, none, none, none⟩ : Message)] ↔
          m ∈ [(⟨4, 1, 2, "one", false, 6, none, none, none⟩ : Message)]
            ∧ pairMatch 1 2 m = true)
      ∧ (∀ m, List.count m [(⟨4, 1, 2, "one", false, 6, none, none, none⟩ : Message)]
          = List.count m
              (([⟨4, 1, 2, "one", false, 6, none, none, none⟩] : Store).filter
                (pairMatch 1 2)))
      ∧ ([(⟨4, 1, 2, "one", false, 6, none, none, none⟩ : Message)]).Pairwise
          (fun x y => x.created_at ≤ y.created_at)) :=
  have hvalid : validListBetween [⟨4, 1, 2, "one", false, 6, none, none, none⟩] 1 2
      [⟨4, 1, 2, "one", false, 6, none, none, none⟩] := by
    constructor
    · have hf : ([⟨4, 1, 2, "one", false, 6, none, none, none⟩] : Store).filter
          (pairMatch 1 2) = [⟨4, 1, 2, "one", false, 6, none, none, none⟩] := by decide
      rw [hf]
    · simp
  ⟨hvalid, listBetween_exact_and_sorted
    [⟨4, 1, 2, "one", false, 6, none, none, none⟩] 1 2
    [⟨4, 1, 2, "one", false, 6, none, none, none⟩] hvalid⟩

/-- `bumpRow` keeps the counterpart key. -/
theorem bumpRow_otherUserId (o : Nat) (c : Conversation) :
    (bumpRow o c).otherUserId = c.otherUserId := by
  unfold bumpRow
  split <;> rfl

/-- `bumpRow` keeps the preview text. -/
theorem bumpRow_lastMessage (o : Nat) (c : Conversation) :
    (bumpRow o c).lastMessage = c.lastMessage := by
  unfold bumpRow
  split <;> rfl

/-- `bumpRow` keeps the preview timestamp. -/
theorem bumpRow_lastMessageTime (o : Nat) (c : Conversation) :
    (bumpRow o c).lastMessageTime = c.lastMessageTime := by
  unfold bumpRow
  split <;> rfl

/-- `bumpRow` adds one to the unread count of the targeted counterpart. -/
theorem bumpRow_unreadCount (o : Nat) (c : Conversation) :
    (bumpRow o c).unreadCount
      = c.unreadCount + (if c.otherUserId == o then 1 else 0) := by
  unfold bumpRow
  by_cases h : (c.otherUserId == o) = true
  · simp [h]
  · simp [h]

/-- Looking a counterpart up commutes with the bump map. -/
theorem findConv_map_bumpRow (convs : List Conversation) (o k : Nat) :
    findConv (convs.map (bumpRow o)) k = (findConv convs k).map (bumpRow o) := by
  unfold findConv
  rw [List.find?_map]
  have hcomp : ((fun c : Conversation => c.otherUserId == k) ∘ bumpRow o)
      = fun c : Conversation => c.otherUserId == k := by
    funext c
    simp [Function.comp, bumpRow_otherUserId]
  rw [hcomp]

/-- Looking a counterpart up in an extended accumulator. -/
theorem findConv_append (convs extra : List Conversation) (k : Nat) :
    findConv (convs ++ extra) k
      = match findConv convs k with
        | some c => some c
        | none => findConv extra k := by
  unfold findConv
  induction convs with
  | nil => simp
  | cons h t ih =>
    by_cases hk : (h.otherUserId == k) = true
    · simp [List.find?_cons, hk]
    · simp only [List.cons_append, List.find?_cons, Bool.eq_false_iff.mpr hk]
      exact ih

/-- With pairwise-distinct counterpart keys, lookup returns the member. -/
theorem findConv_of_mem {convs : List Conversation} {c : Conversation}
    (hc : c ∈ convs)
    (huniq : convs.Pairwise fun a b => a.otherUserId ≠ b.otherUserId) :
    findConv convs c.otherUserId = some c := by
  induction convs with
  | nil => cases hc
  | cons h t ih =>
    rcases List.pairwise_cons.mp huniq with ⟨hhead, htail⟩
    rcases List.mem_cons.mp hc with rfl | hc2
    · simp [findConv]
    · have hne : (h.otherUserId == c.otherUserId) = false :=
        beq_eq_false_iff_ne.mpr (hhead c hc2)
      simp only [findConv, List.find?_cons, hne]
      exact ih hc2 htail

/-- Having a row for a counterpart is having a successful lookup. -/
theorem anyKey_iff_findConv (convs : List Conversation) (k : Nat) :
    (convs.any fun c => c.otherUserId == k) = true ↔ (findConv convs k).isSome := by
  rw [List.any_eq_true]
  unfold findConv
  rw [List.find?_isSome]

/-- The spec unread count over a cons. -/
theorem specUnread_cons (m : Message) (rest : List Message) (viewer k : Nat) :
    specUnread (m :: rest) viewer k
      = (if bumpPred viewer k m then 1 else 0) + specUnread rest viewer k := by
  unfold specUnread
  by_cases h : bumpPred viewer k m = true
  · simp [List.filter_cons, h, Nat.add_comm]
  · simp [List.filter_cons, h]

/-- A message bumping counterpart `k` has `k` as its counterpart. -/
theorem bumpPred_counterpart {viewer k : Nat} {m : Message}
    (h : bumpPred viewer k m = true) : counterpartOf viewer m = k := by
  unfold bumpPred at h
  rw [Bool.and_eq_true] at h
  obtain ⟨hsr, -⟩ := h
  rw [Bool.and_eq_true] at hsr
  obtain ⟨hs, hr⟩ := hsr
  unfold counterpartOf
  by_cases hv : (m.sender_id == viewer) = true
  · rw [if_pos hv, beq_iff_eq.mp hr, ← beq_iff_eq.mp hv, beq_iff_eq.mp hs]
  · rw [if_neg hv]
    exact beq_iff_eq.mp hs

/-- When the counterpart of a bumping message is `o`, its bump target is `o`
    itself; conversely a message bumps exactly its own counterpart. -/
theorem bumpPred_other_iff (viewer : Nat) (m : Message) (k : Nat) :
    bumpPred viewer k m = true ↔
      bumpPred viewer (counterpartOf viewer m) m = true ∧ counterpartOf viewer m = k := by
  constructor
  · intro h
    have hk := bumpPred_counterpart h
    exact ⟨by rw [hk]; exact h, hk⟩
  · rintro ⟨h, rfl⟩
    exact h

/-- Updating the unread count with itself is the identity. -/
theorem conv_eta_unread (c : Conversation) :
    ({ c with unreadCount := c.unreadCount + 0 } : Conversation) = c := by
  rw [Nat.add_zero]

/-- Under a bump for the message's own counterpart, the bump of a row keyed
    `k` adds exactly the message's contribution to `k`. -/
theorem bumpRow_eq_bump {viewer : Nat} {m : Message} {conv : Conversation} {k : Nat}
    (hck : conv.otherUserId = k)
    (hbump : bumpPred viewer (counterpartOf viewer m) m = true) :
    bumpRow (counterpartOf viewer m) conv
      = { conv with unreadCount :=
            conv.unreadCount + (if bumpPred viewer k m then 1 else 0) } := by
  by_cases hko : k = counterpartOf viewer m
  · subst hko
    rw [bumpRow, if_pos (beq_iff_eq.mpr hck), if_pos hbump]
  · have hcond : (conv.otherUserId == counterpartOf viewer m) = false :=
      beq_eq_false_iff_ne.mpr (by rw [hck]; exact hko)
    have hkfalse : bumpPred viewer k m = false := by
      apply Bool.eq_false_iff.mpr
      intro hb
      exact hko (bumpPred_counterpart hb).symm
    rw [bumpRow, if_neg (by simp [hcond]), hkfalse, if_neg (by simp)]
    exact (conv_eta_unread conv).symm

/-- Without a bump for the message's own counterpart there is no bump for
    any counterpart. -/
theorem bumpPred_false_of_self {viewer : Nat} {m : Message} (k : Nat)
    (hbump : ¬ bumpPred viewer (counterpartOf viewer m) m = true) :
    bumpPred viewer k m = false := by
  apply Bool.eq_false_iff.mpr
  intro hb
  apply hbump
  rw [bumpPred_counterpart hb]
  exact hb

/-- A successful lookup returns a row carrying the looked-up key. -/
theorem findConv_key {convs : List Conversation} {k : Nat} {conv : Conversation}
    (h : findConv convs k = some conv) : conv.otherUserId = k := by
  unfold findConv at h
  exact beq_iff_eq.mp
    (@List.find?_some Conversation (fun c => c.otherUserId == k) conv convs h)

/-- How one `fetchConversations` iteration transforms the lookup of an
    arbitrary counterpart `k`: an existing row gains the message's unread
    contribution to `k`; a missing row is created — from this message, with
    its unread contribution — exactly when the message's counterpart is `k`. -/
theorem findConv_convStep (viewer : Nat) (names : Nat → Option String)
    (acc : List Conversation) (m : Message) (k : Nat) :
    findConv (convStep viewer names acc m) k
      = match findConv acc k with
        | some conv =>
            some { conv with unreadCount :=
              conv.unreadCount + (if bumpPred viewer k m then 1 else 0) }
        | none =>
            if counterpartOf viewer m == k then
              some { newConv names (counterpartOf viewer m) m with unreadCount :=
                (if bumpPred viewer k m then 1 else 0) }
            else none := by
  simp only [convStep]
  by_cases hbump : bumpPred viewer (counterpartOf viewer m) m = true
  · rw [if_pos hbump, findConv_map_bumpRow]
    by_cases hany : (acc.any fun c => c.otherUserId == counterpartOf viewer m) = true
    · rw [if_pos hany]
      cases hf : findConv acc k with
      | some conv =>
        have hck : conv.otherUserId = k := findConv_key hf
        simp only [Option.map]
        rw [bumpRow_eq_bump hck hbump]
      | none =>
        have hok : (counterpartOf viewer m == k) = false := by
          apply beq_eq_false_iff_ne.mpr
          intro heq
          have hsome := (anyKey_iff_findConv acc (counterpartOf viewer m)).mp hany
          rw [heq, hf] at hsome
          cases hsome
        simp only [Option.map]
        rw [hok]
        rfl
    · rw [if_neg hany, findConv_append]
      cases hf : findConv acc k with
      | some conv =>
        have hck : conv.otherUserId = k := findConv_key hf
        simp only [Option.map]
        rw [bumpRow_eq_bump hck hbump]
      | none =>
        by_cases hko : (counterpartOf viewer m == k) = true
        · have hnc : findConv [newConv names (counterpartOf viewer m) m] k
              = some (newConv names (counterpartOf viewer m) m) := by
            simp [findConv, newConv, hko]
          rw [hnc]
          simp only [Option.map]
          rw [hko]
          have hk : k = counterpartOf viewer m := (beq_iff_eq.mp hko).symm
          subst hk
          rw [bumpRow, if_pos (by simp [newConv]), if_pos hbump]
          rfl
        · have hnc : findConv [newConv names (counterpartOf viewer m) m] k
              = none := by
            simp [findConv, newConv, hko]
          rw [hnc]
          simp only [Option.map]
          rw [Bool.eq_false_iff.mpr hko]
          rfl
  · rw [if_neg hbump]
    have hkfalse : bumpPred viewer k m = false := bumpPred_false_of_self k hbump
    by_cases hany : (acc.any fun c => c.otherUserId == counterpartOf viewer m) = true
    · rw [if_pos hany]
      cases hf : findConv acc k with
      | some conv =>
        rw [hkfalse]
        rfl
      | none =>
        have hok : (counterpartOf viewer m == k) = false := by
          apply beq_eq_false_iff_ne.mpr
          intro heq
          have hsome := (anyKey_iff_findConv acc (counterpartOf viewer m)).mp hany
          rw [heq, hf] at hsome
          cases hsome
        rw [hok]
        rfl
    · rw [if_neg hany, findConv_append]
      cases hf : findConv acc k with
      | some conv =>
        rw [hkfalse]
        rfl
      | none =>
        by_cases hko : (counterpartOf viewer m == k) = true
        · have hnc : findConv [newConv names (counterpartOf viewer m) m] k
              = some (newConv names (counterpartOf viewer m) m) := by
            simp [findConv, newConv, hko]
          rw [hnc, hko, hkfalse]
          rfl
        · have hnc : findConv [newConv names (counterpartOf viewer m) m] k
              = none := by
            simp [findConv, newConv, hko]
          rw [hnc, Bool.eq_false_iff.mpr hko]
          rfl

/-- Characterization of the whole grouping loop for one counterpart: a row
    already in the accumulator gains the unread total of the processed
    messages; a counterpart without a row gets one built from its first
    processed message, carrying the unread total; counterparts never seen
    stay absent. -/
theorem findConv_foldl (viewer : Nat) (names : Nat → Option String)
    (msgs : List Message) :
    ∀ (acc : List Conversation) (k : Nat),
    findConv (msgs.foldl (convStep viewer names) acc) k
      = match findConv acc k with
        | some conv =>
            some { conv with unreadCount := conv.unreadCount + specUnread msgs viewer k }
        | none =>
            match msgs.find? (fun m => counterpartOf viewer m == k) with
            | some m0 =>
                some { newConv names k m0 with unreadCount := specUnread msgs viewer k }
            | none => none := by
  induction msgs with
  | nil =>
    intro acc k
    cases hf : findConv acc k with
    | some conv =>
      simp only [List.foldl_nil, hf]
      show some conv = some { conv with unreadCount := conv.unreadCount + specUnread [] viewer k }
      rw [show specUnread [] viewer k = 0 from rfl, Nat.add_zero]
    | none =>
      simp [List.foldl_nil, hf]
  | cons m rest ih =>
    intro acc k
    rw [List.foldl_cons, ih (convStep viewer names acc m) k,
      findConv_convStep viewer names acc m k]
    cases hf : findConv acc k with
    | some conv =>
      simp only [specUnread_cons]
      rw [Nat.add_assoc]
    | none =>
      by_cases hko : (counterpartOf viewer m == k) = true
      · rw [if_pos hko]
        have hk : k = counterpartOf viewer m := (beq_iff_eq.mp hko).symm
        subst hk
        rw [List.find?_cons_of_pos rest hko]
        simp only [specUnread_cons]
      · rw [if_neg hko]
        rw [List.find?_cons_of_neg rest hko]
        have hbk : bumpPred viewer k m = false := by
          apply Bool.eq_false_iff.mpr
          intro hb
          exact hko (beq_iff_eq.mpr (bumpPred_counterpart hb))
        cases hr : rest.find? (fun m2 => counterpartOf viewer m2 == k) with
        | some m0 =>
          simp only [specUnread_cons, hbk]
          rw [if_neg (by simp), Nat.zero_add]
        | none => rfl

/-- One `fetchConversations` iteration keeps counterpart keys distinct. -/
theorem convStep_uniq {viewer : Nat} {names : Nat → Option String}
    {acc : List Conversation} (m : Message)
    (huniq : acc.Pairwise fun a b => a.otherUserId ≠ b.otherUserId) :
    (convStep viewer names acc m).Pairwise
      fun a b => a.otherUserId ≠ b.otherUserId := by
  simp only [convStep]
  have hacc1 : (if acc.any fun c => c.otherUserId == counterpartOf viewer m then acc
      else acc ++ [newConv names (counterpartOf viewer m) m]).Pairwise
      fun a b => a.otherUserId ≠ b.otherUserId := by
    split
    · exact huniq
    next hany =>
      rw [List.pairwise_append]
      refine ⟨huniq, List.pairwise_singleton _ _, ?_⟩
      intro a ha b hb
      rcases List.mem_singleton.mp hb with rfl
      intro heq
      apply hany
      rw [List.any_eq_true]
      exact ⟨a, ha, beq_iff_eq.mpr heq⟩
  split
  · exact List.pairwise_map.mpr
      (hacc1.imp fun h => by simpa [bumpRow_otherUserId] using h)
  · exact hacc1

/-- The grouping loop keeps counterpart keys pairwise distinct. -/
theorem foldl_convStep_uniq (viewer : Nat) (names : Nat → Option String)
    (msgs : List Message) :
    ∀ acc, (acc.Pairwise fun a b => a.otherUserId ≠ b.otherUserId) →
      (msgs.foldl (convStep viewer names) acc).Pairwise
        fun a b => a.otherUserId ≠ b.otherUserId := by
  induction msgs with
  | nil => exact fun acc h => h
  | cons m rest ih => exact fun acc h => ih _ (convStep_uniq m h)

/-- Restricting the unread filter to the viewer's fetched messages loses
    nothing: every counted message already has the viewer as recipient. -/
theorem specUnread_participantFilter (store : Store) (viewer k : Nat) :
    specUnread (participantFilter viewer store) viewer k
      = specUnread store viewer k := by
  unfold specUnread participantFilter
  rw [List.filter_filter]
  apply congrArg List.length
  apply List.filter_congr
  intro m _
  by_cases hb : bumpPred viewer k m = true
  · have hr : (m.recipient_id == viewer) = true := by
      unfold bumpPred at hb
      rw [Bool.and_eq_true] at hb
      rw [Bool.and_eq_true] at hb
      exact hb.1.2
    rw [hb]
    simp [hr]
  · simp [Bool.eq_false_iff.mpr hb]

/-- The unread count is invariant under permutation of the fetched list. -/
theorem specUnread_perm {l1 l2 : List Message} (h : l1.Perm l2) (viewer k : Nat) :
    specUnread l1 viewer k = specUnread l2 viewer k := by
  unfold specUnread
  exact (h.filter _).length_eq

/-- A row the batch mark-read has processed never satisfies the unread
    filter again. -/
theorem bumpPred_markRow (viewer k : Nat) (x : Message) :
    bumpPred viewer k (markRow k viewer x) = false := by
  unfold markRow
  by_cases h : (x.sender_id == k && x.recipient_id == viewer && !x.read) = true
  · rw [if_pos h]
    unfold bumpPred
    simp
  · rw [if_neg h]
    exact Bool.eq_false_iff.mpr h

/-- After `markAsRead` the stored unread count for the conversation is 0. -/
theorem specUnread_markAsRead (store : Store) (viewer k : Nat) :
    specUnread (markAsRead store k viewer) viewer k = 0 := by
  unfold markAsRead
  induction store with
  | nil => rfl
  | cons h t ih =>
    rw [List.map_cons, specUnread_cons, bumpPred_markRow, if_neg (by simp),
      Nat.zero_add]
    exact ih

/-- Every produced conversation row's unread count is the stored unread
    count of its counterpart. -/
theorem buildConversations_unread (viewer : Nat) (names : Nat → Option String)
    (store : Store) (msgs : List Message)
    (hperm : msgs.Perm (participantFilter viewer store)) :
    ∀ conv ∈ buildConversations viewer names msgs,
      conv.unreadCount = specUnread store viewer conv.otherUserId := by
  intro conv hconv
  unfold buildConversations at hconv
  have huniq := foldl_convStep_uniq viewer names msgs [] List.Pairwise.nil
  have hfind := findConv_of_mem hconv huniq
  have hchar := findConv_foldl viewer names msgs [] conv.otherUserId
  rw [show findConv ([] : List Conversation) conv.otherUserId = none from rfl] at hchar
  rw [hfind] at hchar
  cases hr : msgs.find? (fun m => counterpartOf viewer m == conv.otherUserId) with
  | some m0 =>
    rw [hr] at hchar
    have hconv2 := Option.some.inj hchar
    have hu : conv.unreadCount = specUnread msgs viewer conv.otherUserId := by
      rw [hconv2]
      rfl
    rw [hu, specUnread_perm hperm, specUnread_participantFilter]
  | none =>
    rw [hr] at hchar
    cases hchar

/-- **C7**: the unread count `fetchConversations` computes for each
    conversation row equals the number of stored messages from that
    counterpart to the viewer with `read = false`; after the mark-read batch
    for a conversation, that stored count is 0, and a rerun of
    `fetchConversations` reports 0 for it. -/
theorem conversations_unread_correct
    (store : Store) (viewer counterpart : Nat) (names : Nat → Option String)
    (msgs msgs2 : List Message)
    (hperm : msgs.Perm (participantFilter viewer store))
    (hperm2 : msgs2.Perm
      (participantFilter viewer (markAsRead store counterpart viewer))) :
    (∀ conv ∈ buildConversations viewer names msgs,
       conv.unreadCount = specUnread store viewer conv.otherUserId)
    ∧ specUnread (markAsRead store counterpart viewer) viewer counterpart = 0
    ∧ (∀ conv ∈ buildConversations viewer names msgs2,
        conv.otherUserId = counterpart → conv.unreadCount = 0) := by
  refine ⟨buildConversations_unread viewer names store msgs hperm,
    specUnread_markAsRead store viewer counterpart, ?_⟩
  intro conv hconv hk
  have hc := buildConversations_unread viewer names _ msgs2 hperm2 conv hconv
  rw [hc, hk, specUnread_markAsRead]

/-- Concrete instance: one unread inbound message, counted then cleared. -/
theorem conversations_unread_correct_witness :
    ((participantFilter 9 [⟨1, 5, 9, "hi", false, 0, none, none, none⟩]).Perm
        (participantFilter 9 [⟨1, 5, 9, "hi", false, 0, none, none, none⟩])
      ∧ (participantFilter 9
          (markAsRead [⟨1, 5, 9, "hi", false, 0, none, none, none⟩] 5 9)).Perm
        (participantFilter 9
          (markAsRead [⟨1, 5, 9, "hi", false, 0, none, none, none⟩] 5 9)))
    ∧ ((∀ conv ∈ buildConversations 9 (fun _ => none)
          (participantFilter 9 [⟨1, 5, 9, "hi", false, 0, none, none, none⟩]),
         conv.unreadCount
           = specUnread [⟨1, 5, 9, "hi", false, 0, none, none, none⟩] 9 conv.otherUserId)
      ∧ specUnread (markAsRead [⟨1, 5, 9, "hi", false, 0, none, none, none⟩] 5 9) 9 5 = 0
      ∧ (∀ conv ∈ buildConversations 9 (fun _ => none)
          (participantFilter 9
            (markAsRead [⟨1, 5, 9, "hi", false, 0, none, none, none⟩] 5 9)),
          conv.otherUserId = 5 → conv.unreadCount = 0)) :=
  ⟨⟨List.Perm.refl _, List.Perm.refl _⟩,
   conversations_unread_correct [⟨1, 5, 9, "hi", false, 0, none, none, none⟩] 9 5
     (fun _ => none) _ _ (List.Perm.refl _) (List.Perm.refl _)⟩

/-- A message is in conversation(viewer, k) iff the viewer participates in
    it and its counterpart relative to the viewer is `k`. -/
theorem pairMatch_iff (viewer k : Nat) (m : Message) :
    pairMatch viewer k m = true ↔
      ((m.sender_id == viewer || m.recipient_id == viewer) = true
        ∧ counterpartOf viewer m = k) := by
  unfold pairMatch counterpartOf
  constructor
  · intro h
    rw [Bool.or_eq_true] at h
    rcases h with h | h <;> rw [Bool.and_eq_true] at h
    · obtain ⟨hs, hr⟩ := h
      refine ⟨by rw [Bool.or_eq_true]; exact Or.inl hs, ?_⟩
      rw [if_pos hs]
      exact beq_iff_eq.mp hr
    · obtain ⟨hs, hr⟩ := h
      refine ⟨by rw [Bool.or_eq_true]; exact Or.inr hr, ?_⟩
      by_cases hv : (m.sender_id == viewer) = true
      · rw [if_pos hv, beq_iff_eq.mp hr, ← beq_iff_eq.mp hv]
        exact beq_iff_eq.mp hs
      · rw [if_neg hv]
        exact beq_iff_eq.mp hs
  · rintro ⟨hpart, hk⟩
    rw [Bool.or_eq_true] at hpart
    rw [Bool.or_eq_true]
    rcases hpart with hs | hr
    · left
      rw [Bool.and_eq_true]
      refine ⟨hs, ?_⟩
      rw [if_pos hs] at hk
      exact beq_iff_eq.mpr hk
    · by_cases hv : (m.sender_id == viewer) = true
      · left
        rw [Bool.and_eq_true]
        refine ⟨hv, ?_⟩
        rw [if_pos hv] at hk
        exact beq_iff_eq.mpr hk
      · right
        rw [Bool.and_eq_true]
        rw [if_neg hv] at hk
        exact ⟨beq_iff_eq.mpr hk, hr⟩

/-- Transfer between the fetched list and the store: membership of the
    conversation. -/
theorem mem_msgs_iff_pairMatch {store : Store} {viewer : Nat} {msgs : List Message}
    (hperm : msgs.Perm (participantFilter viewer store)) (k : Nat) (m : Message) :
    (m ∈ msgs ∧ counterpartOf viewer m = k)
      ↔ (m ∈ store ∧ pairMatch viewer k m = true) := by
  rw [hperm.mem_iff]
  unfold participantFilter
  rw [List.mem_filter]
  constructor
  · rintro ⟨⟨hm, hpart⟩, hk⟩
    exact ⟨hm, (pairMatch_iff viewer k m).mpr ⟨hpart, hk⟩⟩
  · rintro ⟨hm, hpm⟩
    obtain ⟨hpart, hk⟩ := (pairMatch_iff viewer k m).mp hpm
    exact ⟨⟨hm, hpart⟩, hk⟩

/-- In a `created_at`-descending list, the first hit of a predicate carries
    the maximal `created_at` among all hits. -/
theorem find?_first_created_max {msgs : List Message} {p : Message → Bool} {m0 : Message}
    (hsort : msgs.Pairwise fun a b => b.created_at ≤ a.created_at)
    (hfind : msgs.find? p = some m0) :
    ∀ m1 ∈ msgs, p m1 = true → m1.created_at ≤ m0.created_at := by
  induction msgs with
  | nil => cases hfind
  | cons h t ih =>
    rcases List.pairwise_cons.mp hsort with ⟨hhead, htail⟩
    by_cases hp : p h = true
    · rw [List.find?_cons_of_pos t hp] at hfind
      cases hfind
      intro m1 hm1 _
      rcases List.mem_cons.mp hm1 with rfl | hm1t
      · exact Nat.le_refl _
      · exact hhead m1 hm1t
    · rw [List.find?_cons_of_neg t hp] at hfind
      intro m1 hm1 hpm1
      rcases List.mem_cons.mp hm1 with rfl | hm1t
      · exact absurd hpm1 hp
      · exact ih htail hfind m1 hm1t hpm1

/-- A row found by key is a member. -/
theorem findConv_mem {convs : List Conversation} {k : Nat} {conv : Conversation}
    (h : findConv convs k = some conv) : conv ∈ convs := by
  unfold findConv at h
  exact List.mem_of_find?_eq_some h

/-- The `lastMessageTime` of any row after one iteration comes from the old
    accumulator or from the processed message. -/
theorem convStep_time_mem {viewer : Nat} {names : Nat → Option String}
    {acc : List Conversation} {m : Message} {c : Conversation}
    (hc : c ∈ convStep viewer names acc m) :
    (∃ c0 ∈ acc, c.lastMessageTime = c0.lastMessageTime)
      ∨ c.lastMessageTime = m.created_at := by
  simp only [convStep] at hc
  split at hc
  · rcases List.mem_map.mp hc with ⟨c1, hc1, rfl⟩
    rw [bumpRow_lastMessageTime]
    split at hc1
    · exact Or.inl ⟨c1, hc1, rfl⟩
    · rcases List.mem_append.mp hc1 with hmem | hmem
      · exact Or.inl ⟨c1, hmem, rfl⟩
      · rcases List.mem_singleton.mp hmem with rfl
        exact Or.inr rfl
  · split at hc
    · exact Or.inl ⟨c, hc, rfl⟩
    · rcases List.mem_append.mp hc with hmem | hmem
      · exact Or.inl ⟨c, hmem, rfl⟩
      · rcases List.mem_singleton.mp hmem with rfl
        exact Or.inr rfl

/-- One iteration keeps the rows' times in descending order when the
    incoming message is no newer than any existing row. -/
theorem convStep_timesDesc {viewer : Nat} {names : Nat → Option String}
    {acc : List Conversation} {m : Message}
    (hacc : acc.Pairwise fun c1 c2 => c2.lastMessageTime ≤ c1.lastMessageTime)
    (hbound : ∀ c ∈ acc, m.created_at ≤ c.lastMessageTime) :
    (convStep viewer names acc m).Pairwise
      fun c1 c2 => c2.lastMessageTime ≤ c1.lastMessageTime := by
  simp only [convStep]
  have hacc1 : (if acc.any fun c => c.otherUserId == counterpartOf viewer m then acc
      else acc ++ [newConv names (counterpartOf viewer m) m]).Pairwise
      fun c1 c2 => c2.lastMessageTime ≤ c1.lastMessageTime := by
    split
    · exact hacc
    · rw [List.pairwise_append]
      refine ⟨hacc, List.pairwise_singleton _ _, ?_⟩
      intro a ha b hb
      rcases List.mem_singleton.mp hb with rfl
      exact hbound a ha
  split
  · exact List.pairwise_map.mpr
      (hacc1.imp fun h => by simpa [bumpRow_lastMessageTime] using h)
  · exact hacc1

/-- The grouping loop over a `created_at`-descending list emits rows in
    `lastMessageTime`-descending order. -/
theorem foldl_convStep_timesDesc (viewer : Nat) (names : Nat → Option String) :
    ∀ (msgs : List Message) (acc : List Conversation),
    (msgs.Pairwise fun a b => b.created_at ≤ a.created_at) →
    (acc.Pairwise fun c1 c2 => c2.lastMessageTime ≤ c1.lastMessageTime) →
    (∀ c ∈ acc, ∀ m ∈ msgs, m.created_at ≤ c.lastMessageTime) →
    ((msgs.foldl (convStep viewer names) acc).Pairwise
      fun c1 c2 => c2.lastMessageTime ≤ c1.lastMessageTime) := by
  intro msgs
  induction msgs with
  | nil => exact fun acc _ hacc _ => hacc
  | cons m rest ih =>
    intro acc hsort hacc hbound
    rcases List.pairwise_cons.mp hsort with ⟨hheadsort, htailsort⟩
    rw [List.foldl_cons]
    apply ih _ htailsort
    · exact convStep_timesDesc hacc
        fun c hc => hbound c hc m (List.mem_cons_self m rest)
    · intro c hc m1 hm1
      rcases convStep_time_mem hc with ⟨c0, hc0, heq⟩ | heq
      · rw [heq]
        exact hbound c0 hc0 m1 (List.mem_cons_of_mem m hm1)
      · rw [heq]
        exact hheadsort m1 hm1

/-- Each produced row previews the newest stored message of its
    counterpart: preview text and time come from a conversation message of
    maximal `created_at`. -/
theorem buildConversations_preview (viewer : Nat) (names : Nat → Option String)
    (store : Store) (msgs : List Message)
    (hperm : msgs.Perm (participantFilter viewer store))
    (hsort : msgs.Pairwise fun a b => b.created_at ≤ a.created_at) :
    ∀ conv ∈ buildConversations viewer names msgs,
      ∃ m0 ∈ store,
        pairMatch viewer conv.otherUserId m0 = true
        ∧ conv.lastMessage = getMessagePreview m0
        ∧ conv.lastMessageTime = m0.created_at
        ∧ ∀ m1 ∈ store, pairMatch viewer conv.otherUserId m1 = true →
            m1.created_at ≤ m0.created_at := by
  intro conv hconv
  unfold buildConversations at hconv
  have huniq := foldl_convStep_uniq viewer names msgs [] List.Pairwise.nil
  have hfind := findConv_of_mem hconv huniq
  have hchar := findConv_foldl viewer names msgs [] conv.otherUserId
  rw [show findConv ([] : List Conversation) conv.otherUserId = none from rfl,
    hfind] at hchar
  cases hr : msgs.find? (fun m => counterpartOf viewer m == conv.otherUserId) with
  | none =>
    rw [hr] at hchar
    cases hchar
  | some m0 =>
    rw [hr] at hchar
    have hconv2 := Option.some.inj hchar
    have hm0mem : m0 ∈ msgs := List.mem_of_find?_eq_some hr
    have hm0k : counterpartOf viewer m0 = conv.otherUserId :=
      beq_iff_eq.mp
        (@List.find?_some Message
          (fun m => counterpartOf viewer m == conv.otherUserId) m0 msgs hr)
    have hm0store :=
      (mem_msgs_iff_pairMatch hperm conv.otherUserId m0).mp ⟨hm0mem, hm0k⟩
    refine ⟨m0, hm0store.1, hm0store.2, ?_, ?_, ?_⟩
    · rw [hconv2]
      rfl
    · rw [hconv2]
      rfl
    · intro m1 hm1 hpm1
      have hm1msgs :=
        (mem_msgs_iff_pairMatch hperm conv.otherUserId m1).mpr ⟨hm1, hpm1⟩
      exact find?_first_created_max hsort hr m1 hm1msgs.1
        (beq_iff_eq.mpr hm1msgs.2)

/-- A counterpart has a produced row exactly when some stored message lies
    in its conversation with the viewer. -/
theorem buildConversations_exists_iff (viewer : Nat) (names : Nat → Option String)
    (store : Store) (msgs : List Message)
    (hperm : msgs.Perm (participantFilter viewer store)) (k : Nat) :
    (∃ conv ∈ buildConversations viewer names msgs, conv.otherUserId = k)
      ↔ ∃ m ∈ store, pairMatch viewer k m = true := by
  constructor
  · rintro ⟨conv, hconv, rfl⟩
    unfold buildConversations at hconv
    have huniq := foldl_convStep_uniq viewer names msgs [] List.Pairwise.nil
    have hfind := findConv_of_mem hconv huniq
    have hchar := findConv_foldl viewer names msgs [] conv.otherUserId
    rw [show findConv ([] : List Conversation) conv.otherUserId = none from rfl,
      hfind] at hchar
    cases hr : msgs.find? (fun m => counterpartOf viewer m == conv.otherUserId) with
    | none =>
      rw [hr] at hchar
      cases hchar
    | some m0 =>
      have hm0mem : m0 ∈ msgs := List.mem_of_find?_eq_some hr
      have hm0k : counterpartOf viewer m0 = conv.otherUserId :=
        beq_iff_eq.mp
          (@List.find?_some Message
            (fun m => counterpartOf viewer m == conv.otherUserId) m0 msgs hr)
      have hm0store :=
        (mem_msgs_iff_pairMatch hperm conv.otherUserId m0).mp ⟨hm0mem, hm0k⟩
      exact ⟨m0, hm0store.1, hm0store.2⟩
  · rintro ⟨m, hm, hpm⟩
    have hmm := (mem_msgs_iff_pairMatch hperm k m).mpr ⟨hm, hpm⟩
    have hchar := findConv_foldl viewer names msgs [] k
    rw [show findConv ([] : List Conversation) k = none from rfl] at hchar
    cases hr : msgs.find? (fun m2 => counterpartOf viewer m2 == k) with
    | none =>
      have hfs : (msgs.find? fun m2 => counterpartOf viewer m2 == k).isSome := by
        rw [List.find?_isSome]
        exact ⟨m, hmm.1, beq_iff_eq.mpr hmm.2⟩
      rw [hr] at hfs
      cases hfs
    | some m0 =>
      rw [hr] at hchar
      refine ⟨_, findConv_mem hchar, findConv_key hchar⟩

/-- **C8**: `fetchConversations` yields one row per counterpart — keys are
    pairwise distinct and a row exists exactly for counterparts with at
    least one stored conversation message — each row's preview and time come
    from a newest (maximal `created_at`) message of that conversation, and
    the rows are ordered by `lastMessageTime` descending. -/
theorem conversations_grouping_ordering
    (store : Store) (viewer : Nat) (names : Nat → Option String)
    (msgs : List Message)
    (hperm : msgs.Perm (participantFilter viewer store))
    (hsort : msgs.Pairwise fun a b => b.created_at ≤ a.created_at) :
    ((buildConversations viewer names msgs).Pairwise
      fun c1 c2 => c1.otherUserId ≠ c2.otherUserId)
    ∧ (∀ k, (∃ conv ∈ buildConversations viewer names msgs, conv.otherUserId = k)
        ↔ ∃ m ∈ store, pairMatch viewer k m = true)
    ∧ (∀ conv ∈ buildConversations viewer names msgs,
        ∃ m0 ∈ store, pairMatch viewer conv.otherUserId m0 = true
          ∧ conv.lastMessage = getMessagePreview m0
          ∧ conv.lastMessageTime = m0.created_at
          ∧ ∀ m1 ∈ store, pairMatch viewer conv.otherUserId m1 = true →
              m1.created_at ≤ m0.created_at)
    ∧ ((buildConversations viewer names msgs).Pairwise
        fun c1 c2 => c2.lastMessageTime ≤ c1.lastMessageTime) :=
  ⟨foldl_convStep_uniq viewer names msgs [] List.Pairwise.nil,
   fun k => buildConversations_exists_iff viewer names store msgs hperm k,
   buildConversations_preview viewer names store msgs hperm hsort,
   foldl_convStep_timesDesc viewer names msgs [] hsort List.Pairwise.nil
     (fun c hc => absurd hc (List.not_mem_nil c))⟩

/-- Concrete instance: two counterparts, rows ordered newest first. -/
theorem conversations_grouping_ordering_witness :
    (([⟨2, 9, 6, "b", false, 2, none, none, none⟩,
       ⟨1, 5, 9, "a", false, 1, none, none, none⟩] : List Message).Perm
        (participantFilter 9
          [⟨2, 9, 6, "b", false, 2, none, none, none⟩,
           ⟨1, 5, 9, "a", false, 1, none, none, none⟩])
      ∧ ([⟨2, 9, 6, "b", false, 2, none, none, none⟩,
          ⟨1, 5, 9, "a", false, 1, none, none, none⟩] : List Message).Pairwise
          (fun a b => b.created_at ≤ a.created_at))
    ∧ (((buildConversations 9 (fun _ => none)
          [⟨2, 9, 6, "b", false, 2, none, none, none⟩,
           ⟨1, 5, 9, "a", false, 1, none, none, none⟩]).Pairwise
          fun c1 c2 => c1.otherUserId ≠ c2.otherUserId)
      ∧ (∀ k, (∃ conv ∈ buildConversations 9 (fun _ => none)
            [⟨2, 9, 6, "b", false, 2, none, none, none⟩,
             ⟨1, 5, 9, "a", false, 1, none, none, none⟩], conv.otherUserId = k)
          ↔ ∃ m ∈ ([⟨2, 9, 6, "b", false, 2, none, none, none⟩,
              ⟨1, 5, 9, "a", false, 1, none, none, none⟩] : Store),
              pairMatch 9 k m = true)
      ∧ (∀ conv ∈ buildConversations 9 (fun _ => none)
            [⟨2, 9, 6, "b", false, 2, none, none, none⟩,
             ⟨1, 5, 9, "a", false, 1, none, none, none⟩],
          ∃ m0 ∈ ([⟨2, 9, 6, "b", false, 2, none, none, none⟩,
              ⟨1, 5, 9, "a", false, 1, none, none, none⟩] : Store),
            pairMatch 9 conv.otherUserId m0 = true
            ∧ conv.lastMessage = getMessagePreview m0
            ∧ conv.lastMessageTime = m0.created_at
            ∧ ∀ m1 ∈ ([⟨2, 9, 6, "b", false, 2, none, none, none⟩,
                ⟨1, 5, 9, "a", false, 1, none, none, none⟩] : Store),
                pairMatch 9 conv.otherUserId m1 = true →
                  m1.created_at ≤ m0.created_at)
      ∧ ((buildConversations 9 (fun _ => none)
            [⟨2, 9, 6, "b", false, 2, none, none, none⟩,
             ⟨1, 5, 9, "a", false, 1, none, none, none⟩]).Pairwise
          fun c1 c2 => c2.lastMessageTime ≤ c1.lastMessageTime)) :=
  ⟨⟨by
      have h : participantFilter 9
          [⟨2, 9, 6, "b", false, 2, none, none, none⟩,
           ⟨1, 5, 9, "a", false, 1, none, none, none⟩]
          = [⟨2, 9, 6, "b", false, 2, none, none, none⟩,
             ⟨1, 5, 9, "a", false, 1, none, none, none⟩] := rfl
      rw [h],
    by decide⟩,
   conversations_grouping_ordering
     [⟨2, 9, 6, "b", false, 2, none, none, none⟩,
      ⟨1, 5, 9, "a", false, 1, none, none, none⟩] 9 (fun _ => none)
     [⟨2, 9, 6, "b", false, 2, none, none, none⟩,
      ⟨1, 5, 9, "a", false, 1, none, none, none⟩]
     (by
       have h : participantFilter 9
           [⟨2, 9, 6, "b", false, 2, none, none, none⟩,
            ⟨1, 5, 9, "a", false, 1, none, none, none⟩]
           = [⟨2, 9, 6, "b", false, 2, none, none, none⟩,
              ⟨1, 5, 9, "a", false, 1, none, none, none⟩] := rfl
       rw [h])
     (by decide)⟩

end Capital
